import Mathlib

/-!
Verification development for the Apple Global Sales Dashboard core
(`src/app.py`): the dataset loader's derived calendar fields, the
conjunctive filter over the loaded records, and the aggregation
catalog (KPIs, groupby sums, value counts, top-N queries).

Modelling conventions (shallow embedding of the pandas code):
* A dataframe is a `List Record` in row order.
* `df['Date']` values are `Date` triples ordered lexicographically,
  matching the total order on pandas timestamps.
* `TotalRevenue` is `Rat` (exact decimal arithmetic).
* Boolean-mask filtering (`df[mask]`) is `List.filter`, which keeps
  row order and never copies or synthesizes rows.
* `groupby(key)` uses the pandas default `sort=True`: the group keys
  appear in ascending sorted order, not first-encounter order.
* `sort_values(..., ascending=False)` is modelled as a stable
  descending sort (`List.insertionSort` with the reversed relation);
  `Series.value_counts()` is grouping followed by the same stable
  descending sort on counts.
* `Series.mean()` on an empty series yields the missing-data sentinel
  NaN without raising; this is modelled as `Option.none`.
-/

/-- A calendar date as parsed by `pd.to_datetime`. -/
structure Date where
  year : Nat
  month : Nat
  day : Nat
deriving DecidableEq, Repr

/-- The total order on dates (pandas timestamp comparison):
lexicographic on (year, month, day). -/
def Date.le (a b : Date) : Prop :=
  a.year < b.year ∨
    (a.year = b.year ∧
      (a.month < b.month ∨ (a.month = b.month ∧ a.day ≤ b.day)))

instance (a b : Date) : Decidable (Date.le a b) := by
  unfold Date.le; infer_instance

theorem Date.le_trans {a b c : Date} (h1 : Date.le a b) (h2 : Date.le b c) :
    Date.le a c := by
  unfold Date.le at *; omega

/-- A raw CSV row of `apple_sales_dataset_1000.csv` before the loader
derives the calendar fields. -/
structure RawRecord where
  orderID : Nat
  date : Date
  region : String
  category : String
  product : String
  store : String
  customerSegment : String
  paymentMethod : String
  totalRevenue : Rat
deriving DecidableEq, Repr

/-- A loaded row: the raw fields plus the derived `Month` bucket,
`Year` and `Quarter` columns computed by `load_data`. -/
structure Record where
  orderID : Nat
  date : Date
  region : String
  category : String
  product : String
  store : String
  customerSegment : String
  paymentMethod : String
  totalRevenue : Rat
  month : Nat × Nat
  year : Nat
  quarter : Nat
deriving DecidableEq, Repr

/-- Derivation of the calendar columns for one row, as in `load_data`
(`src/app.py` lines 57-61): `Month` is the year-month bucket
(`dt.to_period('M')`, modelled as the pair (year, month) rather than
the "YYYY-MM" string), `Year` is `dt.year`, and `Quarter` is
`dt.quarter`, which pandas computes as `(month - 1) // 3 + 1`. -/
def loadRecord (r : RawRecord) : Record :=
  { orderID := r.orderID
    date := r.date
    region := r.region
    category := r.category
    product := r.product
    store := r.store
    customerSegment := r.customerSegment
    paymentMethod := r.paymentMethod
    totalRevenue := r.totalRevenue
    month := (r.date.year, r.date.month)
    year := r.date.year
    quarter := (r.date.month - 1) / 3 + 1 }

/-- `load_data`: parse every row and populate the derived columns. -/
def load_data (rows : List RawRecord) : List Record :=
  rows.map loadRecord

/-- The user-chosen filter values of one interaction cycle: the
multiselect lists `regions`, `categories`, `segments`, `years`,
`quarters` and the date range `[start_date, end_date]`
(`src/app.py` lines 68-150). -/
structure FilterSpec where
  regions : List String
  categories : List String
  segments : List String
  years : List Nat
  quarters : List Nat
  start_date : Date
  end_date : Date

/-- The row predicate of the boolean mask at `src/app.py` lines
152-159: six conjuncts, five `isin` membership tests (exact equality)
and `Date.between(start_date, end_date)`, which is inclusive on both
ends (pandas default `inclusive='both'`). -/
def matchesSpec (spec : FilterSpec) (r : Record) : Bool :=
  decide (r.region ∈ spec.regions) &&
  decide (r.category ∈ spec.categories) &&
  decide (r.customerSegment ∈ spec.segments) &&
  decide (r.year ∈ spec.years) &&
  decide (r.quarter ∈ spec.quarters) &&
  (decide (Date.le spec.start_date r.date) &&
   decide (Date.le r.date spec.end_date))

/-- `df_filtered = df[mask]`: the filter engine. Keeps exactly the
rows whose mask entry is True, in their original order. -/
def df_filtered (df : List Record) (spec : FilterSpec) : List Record :=
  df.filter (matchesSpec spec)

/-- KPI `total_revenue = df_filtered['TotalRevenue'].sum()`
(`src/app.py` line 170). -/
def total_revenue (df : List Record) : Rat :=
  (df.map Record.totalRevenue).sum

/-- KPI `total_orders = df_filtered['OrderID'].nunique()`
(`src/app.py` line 171): the number of distinct order identifiers. -/
def total_orders (df : List Record) : Nat :=
  (df.map Record.orderID).dedup.length

/-- KPI `avg_order_value = df_filtered['TotalRevenue'].mean()`
(`src/app.py` line 172). On an empty series pandas returns the NaN
missing-data sentinel without raising; `none` models that sentinel. -/
def avg_order_value (df : List Record) : Option Rat :=
  if df.isEmpty then none
  else some (total_revenue df / (df.length : Rat))

/-- Lexicographic comparison of character lists by code point: the
order Python (and hence pandas `groupby(sort=True)`) uses on strings. -/
def charListLe : List Char → List Char → Bool
  | [], _ => true
  | _ :: _, [] => false
  | a :: as, b :: bs =>
    if a.toNat < b.toNat then true
    else if b.toNat < a.toNat then false
    else charListLe as bs

/-- String comparison by code points, via `String.data`. -/
def strLe (a b : String) : Bool :=
  charListLe a.data b.data

/-- The group keys produced by `groupby(key)` with the pandas default
`sort=True`: the distinct key values in ascending order. -/
def sortedKeys (key : Record → String) (df : List Record) : List String :=
  List.insertionSort (fun a b => strLe a b = true) (df.map key).dedup

/-- `df.groupby(key, as_index=False)['TotalRevenue'].sum()`: one
(group key, summed revenue) row per distinct key, keys ascending. -/
def groupbySum (key : Record → String) (df : List Record) :
    List (String × Rat) :=
  (sortedKeys key df).map fun k =>
    (k, ((df.filter fun r => key r == k).map Record.totalRevenue).sum)

/-- `category_rev` (`src/app.py` line 223): revenue by Category. -/
def category_rev (df : List Record) : List (String × Rat) :=
  groupbySum Record.category df

/-- `segment_rev` (`src/app.py` line 271): revenue by CustomerSegment. -/
def segment_rev (df : List Record) : List (String × Rat) :=
  groupbySum Record.customerSegment df

/-- `payment_counts = df_filtered['PaymentMethod'].value_counts()`
(`src/app.py` line 294): occurrence counts per payment method, sorted
by count in descending order (the `value_counts` default
`sort=True`), the descending sort modelled as stable. -/
def payment_counts (df : List Record) : List (String × Nat) :=
  List.insertionSort (fun a b => b.2 ≤ a.2)
    ((List.insertionSort (fun a b => strLe a b = true)
        (df.map Record.paymentMethod).dedup).map
      fun k => (k, (df.filter fun r => r.paymentMethod == k).length))

/-- `top_products` (`src/app.py` lines 247-252): group by Product,
sum revenue, `sort_values(by='TotalRevenue', ascending=False)`
(modelled as a stable descending sort), then `head(10)`. -/
def top_products (df : List Record) : List (String × Rat) :=
  (List.insertionSort (fun a b => b.2 ≤ a.2)
    (groupbySum Record.product df)).take 10

/-- `store_rev` (`src/app.py` line 314): group by Store, sum revenue,
descending sort on revenue, `head(10)`. -/
def store_rev (df : List Record) : List (String × Rat) :=
  (List.insertionSort (fun a b => b.2 ≤ a.2)
    (groupbySum Record.store df)).take 10

/-- The distinct values of a list in first-encounter order: the order
in which `groupby` would list groups if it did NOT sort keys. Used to
state claims about "insertion/group order". -/
def firstUniques (l : List String) : List String :=
  l.foldl (fun acc a => if a ∈ acc then acc else acc ++ [a]) []

/-- The strict order "larger metric first, ties by ascending group
key": what a stable descending metric sort produces from rows whose
keys are ascending and distinct. -/
def descLex (a b : String × Rat) : Prop :=
  b.2 < a.2 ∨ (b.2 = a.2 ∧ strLe a.1 b.1 = true ∧ a.1 ≠ b.1)

theorem charListLe_total (l1 l2 : List Char) :
    charListLe l1 l2 = true ∨ charListLe l2 l1 = true := by
  induction l1 generalizing l2 with
  | nil => left; rfl
  | cons a as ih =>
    cases l2 with
    | nil => right; rfl
    | cons b bs =>
      simp only [charListLe]
      rcases Nat.lt_trichotomy a.toNat b.toNat with h | h | h
      · left; simp [h]
      · have h1 : ¬ a.toNat < b.toNat := by omega
        have h2 : ¬ b.toNat < a.toNat := by omega
        simpa [h1, h2] using ih bs
      · have h1 : ¬ a.toNat < b.toNat := by omega
        right; simp [h, h1]

theorem charListLe_trans (l1 l2 l3 : List Char)
    (h1 : charListLe l1 l2 = true) (h2 : charListLe l2 l3 = true) :
    charListLe l1 l3 = true := by
  induction l1 generalizing l2 l3 with
  | nil => rfl
  | cons a as ih =>
    cases l2 with
    | nil => simp [charListLe] at h1
    | cons b bs =>
      cases l3 with
      | nil => simp [charListLe] at h2
      | cons c cs =>
        simp only [charListLe] at h1 h2 ⊢
        split_ifs at h1 h2 ⊢ <;>
          first
            | rfl
            | omega
            | exact ih bs cs h1 h2

theorem strLe_total (a b : String) : strLe a b = true ∨ strLe b a = true :=
  charListLe_total a.data b.data

theorem strLe_trans (a b c : String) (h1 : strLe a b = true)
    (h2 : strLe b c = true) : strLe a c = true :=
  charListLe_trans a.data b.data c.data h1 h2

instance : IsTotal String fun a b => strLe a b = true :=
  ⟨strLe_total⟩

instance : IsTrans String fun a b => strLe a b = true :=
  ⟨strLe_trans⟩

instance : IsTotal (String × Nat) fun a b => b.2 ≤ a.2 :=
  ⟨fun a b => le_total b.2 a.2⟩

instance : IsTrans (String × Nat) fun a b => b.2 ≤ a.2 :=
  ⟨fun _ _ _ h1 h2 => le_trans h2 h1⟩

/-- A sample raw row used as a concrete witness input. -/
def rawEast : RawRecord :=
  { orderID := 1
    date := ⟨2024, 1, 15⟩
    region := "East"
    category := "Mac"
    product := "MacBook"
    store := "S1"
    customerSegment := "Consumer"
    paymentMethod := "Card"
    totalRevenue := 100 }

/-- The loaded form of `rawEast`. -/
def recEast : Record := loadRecord rawEast

/-- A filter that accepts `recEast`. -/
def specAll : FilterSpec :=
  { regions := ["East"]
    categories := ["Mac"]
    segments := ["Consumer"]
    years := [2024]
    quarters := [1]
    start_date := ⟨2024, 1, 1⟩
    end_date := ⟨2024, 12, 31⟩ }

/-- A filter like `specAll` but with an empty `regions` multiselect. -/
def specNoRegions : FilterSpec :=
  { regions := []
    categories := ["Mac"]
    segments := ["Consumer"]
    years := [2024]
    quarters := [1]
    start_date := ⟨2024, 1, 1⟩
    end_date := ⟨2024, 12, 31⟩ }

/-- A filter like `specAll` but with a reversed date range. -/
def specReversed : FilterSpec :=
  { regions := ["East"]
    categories := ["Mac"]
    segments := ["Consumer"]
    years := [2024]
    quarters := [1]
    start_date := ⟨2024, 5, 1⟩
    end_date := ⟨2024, 1, 1⟩ }

/-- C1: a dataset record appears in `df_filtered` iff its Region,
Category, CustomerSegment, Year and Quarter are each in the
corresponding acceptance list (exact equality membership) and its
Date lies in the inclusive range [start_date, end_date]. -/
theorem filter_mem_iff (df : List Record) (spec : FilterSpec) (r : Record)
    (hr : r ∈ df) :
    r ∈ df_filtered df spec ↔
      (r.region ∈ spec.regions ∧ r.category ∈ spec.categories ∧
       r.customerSegment ∈ spec.segments ∧ r.year ∈ spec.years ∧
       r.quarter ∈ spec.quarters ∧
       Date.le spec.start_date r.date ∧ Date.le r.date spec.end_date) := by
  unfold df_filtered
  rw [List.mem_filter]
  simp [matchesSpec, hr, and_assoc]

/-- Witness for C1 at the concrete record `recEast` and filter
`specAll`. -/
theorem filter_mem_iff_witness :
    recEast ∈ [recEast] ∧
      (recEast ∈ df_filtered [recEast] specAll ↔
        (recEast.region ∈ specAll.regions ∧
         recEast.category ∈ specAll.categories ∧
         recEast.customerSegment ∈ specAll.segments ∧
         recEast.year ∈ specAll.years ∧
         recEast.quarter ∈ specAll.quarters ∧
         Date.le specAll.start_date recEast.date ∧
         Date.le recEast.date specAll.end_date)) :=
  ⟨List.mem_singleton.mpr rfl,
   filter_mem_iff [recEast] specAll recEast (List.mem_singleton.mpr rfl)⟩

/-- C2: if any of the five acceptance lists is empty, the filtered
view is empty (conjunctive semantics: an empty multiselect excludes
everything), and no error is raised (the filter is a total function). -/
theorem empty_acceptance_empty_view (df : List Record) (spec : FilterSpec)
    (h : spec.regions = [] ∨ spec.categories = [] ∨ spec.segments = [] ∨
         spec.years = [] ∨ spec.quarters = []) :
    df_filtered df spec = [] := by
  unfold df_filtered
  rw [List.filter_eq_nil_iff]
  intro r _
  simp only [matchesSpec, Bool.and_eq_true, decide_eq_true_eq, not_and]
  intro h1 _ _
  obtain ⟨⟨⟨⟨hreg, hcat⟩, hseg⟩, hyear⟩, hquart⟩ := h1
  rcases h with h | h | h | h | h <;> simp_all

/-- Witness for C2: the empty-regions filter empties a nonempty
dataset. -/
theorem empty_acceptance_empty_view_witness :
    (specNoRegions.regions = [] ∨ specNoRegions.categories = [] ∨
      specNoRegions.segments = [] ∨ specNoRegions.years = [] ∨
      specNoRegions.quarters = []) ∧
      df_filtered [recEast] specNoRegions = [] :=
  ⟨Or.inl rfl,
   empty_acceptance_empty_view [recEast] specNoRegions (Or.inl rfl)⟩

/-- C3: a reversed date range (start_date strictly after end_date)
yields an empty view whatever the other filter values, as a normal
result of the total filter function, not an error. -/
theorem reversed_range_empty_view (df : List Record) (spec : FilterSpec)
    (h : ¬ Date.le spec.start_date spec.end_date) :
    df_filtered df spec = [] := by
  unfold df_filtered
  rw [List.filter_eq_nil_iff]
  intro r _
  simp only [matchesSpec, Bool.and_eq_true, decide_eq_true_eq, not_and]
  intro _ hs he
  exact h (Date.le_trans hs he)

/-- Witness for C3 at the concrete reversed-range filter
`specReversed`. -/
theorem reversed_range_empty_view_witness :
    ¬ Date.le specReversed.start_date specReversed.end_date ∧
      df_filtered [recEast] specReversed = [] :=
  ⟨by decide, reversed_range_empty_view [recEast] specReversed (by decide)⟩

/-- C4: on an empty filtered view every KPI is defined without any
division error: `avg_order_value` is the empty sentinel (`none`,
modelling pandas NaN), and the sum and distinct-count KPIs are 0. -/
theorem empty_view_kpis (df : List Record) (spec : FilterSpec)
    (h : df_filtered df spec = []) :
    avg_order_value (df_filtered df spec) = none ∧
      total_revenue (df_filtered df spec) = 0 ∧
      total_orders (df_filtered df spec) = 0 := by
  rw [h]
  exact ⟨rfl, rfl, rfl⟩

/-- Witness for C4 at a concrete dataset whose filtered view is
empty. -/
theorem empty_view_kpis_witness :
    df_filtered [recEast] specNoRegions = [] ∧
      (avg_order_value (df_filtered [recEast] specNoRegions) = none ∧
        total_revenue (df_filtered [recEast] specNoRegions) = 0 ∧
        total_orders (df_filtered [recEast] specNoRegions) = 0) :=
  ⟨by decide, empty_view_kpis [recEast] specNoRegions (by decide)⟩

/-- C7: filtering is idempotent (re-applying the same `FilterSpec` to
its own output returns that output unchanged) and every row of the
filtered view passes all six predicate conditions. -/
theorem filter_idempotent (df : List Record) (spec : FilterSpec) :
    df_filtered (df_filtered df spec) spec = df_filtered df spec ∧
      (df_filtered df spec).all (matchesSpec spec) = true := by
  constructor
  · unfold df_filtered
    exact List.filter_eq_self.mpr fun a ha => (List.mem_filter.mp ha).2
  · rw [List.all_eq_true]
    intro a ha
    exact (List.mem_filter.mp ha).2

/-- C9: the loader's derived `Quarter` is the ceiling of
calendar-month / 3 (characterized by `3 * (q - 1) < month ≤ 3 * q`
and equal to the closed form `(month + 2) / 3` in exact arithmetic);
month 4 gives quarter 2, month 12 gives quarter 4, and for any valid
calendar month the quarter lies in 1..4. -/
theorem quarter_is_ceil_of_month (r : RawRecord)
    (h1 : 1 ≤ r.date.month) (h2 : r.date.month ≤ 12) :
    (loadRecord r).quarter = (r.date.month + 2) / 3 ∧
      (3 * ((loadRecord r).quarter - 1) < r.date.month ∧
        r.date.month ≤ 3 * (loadRecord r).quarter) ∧
      (r.date.month = 4 → (loadRecord r).quarter = 2) ∧
      (r.date.month = 12 → (loadRecord r).quarter = 4) ∧
      (1 ≤ (loadRecord r).quarter ∧ (loadRecord r).quarter ≤ 4) := by
  simp only [loadRecord]
  omega

/-- Witness for C9 at the concrete January row `rawEast`. -/
theorem quarter_is_ceil_of_month_witness :
    (1 ≤ rawEast.date.month ∧ rawEast.date.month ≤ 12) ∧
      ((loadRecord rawEast).quarter = (rawEast.date.month + 2) / 3 ∧
        (3 * ((loadRecord rawEast).quarter - 1) < rawEast.date.month ∧
          rawEast.date.month ≤ 3 * (loadRecord rawEast).quarter) ∧
        (rawEast.date.month = 4 → (loadRecord rawEast).quarter = 2) ∧
        (rawEast.date.month = 12 → (loadRecord rawEast).quarter = 4) ∧
        (1 ≤ (loadRecord rawEast).quarter ∧
          (loadRecord rawEast).quarter ≤ 4)) :=
  ⟨⟨by decide, by decide⟩,
   quarter_is_ceil_of_month rawEast (by decide) (by decide)⟩

/-- C10: the filtered view is an order-preserving subsequence of the
input dataset (every row comes from the dataset, original relative
order is kept, nothing is synthesized), and no row occurs more often
in the view than in the dataset. The input itself is untouched:
`df_filtered` is a pure function of its arguments. -/
theorem filtered_is_sublist (df : List Record) (spec : FilterSpec) :
    (df_filtered df spec).Sublist df ∧
      ∀ r : Record, (df_filtered df spec).count r ≤ df.count r := by
  refine ⟨List.filter_sublist df, fun r => ?_⟩
  exact (List.filter_sublist df).count_le r

theorem sum_map_ite_zero {K : List String} {x : String} (hx : x ∉ K)
    (c : Rat) : (K.map fun k => if x = k then c else 0).sum = 0 := by
  induction K with
  | nil => simp
  | cons a K ih =>
    have hxa : x ≠ a := fun h => hx (h ▸ List.mem_cons_self a K)
    have hxK : x ∉ K := fun h => hx (List.mem_cons_of_mem a h)
    simp [hxa, ih hxK]

theorem sum_map_ite_single {K : List String} (hK : K.Nodup) {x : String}
    (hx : x ∈ K) (c : Rat) :
    (K.map fun k => if x = k then c else 0).sum = c := by
  induction K with
  | nil => simp at hx
  | cons a K ih =>
    by_cases h : x = a
    · subst h
      simp [sum_map_ite_zero (List.nodup_cons.mp hK).1 c]
    · have hx2 : x ∈ K := by
        rcases List.mem_cons.mp hx with h2 | h2
        · exact absurd h2 h
        · exact h2
      simp [h, ih (List.nodup_cons.mp hK).2 hx2]

theorem sum_over_groups (key : Record → String) (l : List Record)
    (K : List String) (hK : K.Nodup) (hcov : ∀ r ∈ l, key r ∈ K) :
    (K.map fun k =>
        ((l.filter fun r => key r == k).map Record.totalRevenue).sum).sum
      = (l.map Record.totalRevenue).sum := by
  induction l with
  | nil => simp
  | cons r l ih =>
    have hcov2 : ∀ x ∈ l, key x ∈ K := fun x hx =>
      hcov x (List.mem_cons_of_mem r hx)
    have step : ∀ k : String,
        (((r :: l).filter fun x => key x == k).map Record.totalRevenue).sum
          = (if key r = k then r.totalRevenue else 0)
            + ((l.filter fun x => key x == k).map Record.totalRevenue).sum := by
      intro k
      by_cases h : key r = k
      · simp [List.filter_cons, h]
      · simp [List.filter_cons, h]
    calc (K.map fun k =>
            (((r :: l).filter fun x => key x == k).map
              Record.totalRevenue).sum).sum
        = (K.map fun k => (if key r = k then r.totalRevenue else 0)
            + ((l.filter fun x => key x == k).map
                Record.totalRevenue).sum).sum := by
          simp only [step]
      _ = (K.map fun k => if key r = k then r.totalRevenue else 0).sum
            + (K.map fun k => ((l.filter fun x => key x == k).map
                Record.totalRevenue).sum).sum := List.sum_map_add
      _ = r.totalRevenue + (l.map Record.totalRevenue).sum := by
          rw [sum_map_ite_single hK (hcov r (List.mem_cons_self r l)),
            ih hcov2]
      _ = ((r :: l).map Record.totalRevenue).sum := by simp

theorem sortedKeys_nodup (key : Record → String) (df : List Record) :
    (sortedKeys key df).Nodup :=
  (List.perm_insertionSort _ _).nodup_iff.mpr (List.nodup_dedup _)

theorem mem_sortedKeys (key : Record → String) {df : List Record}
    {r : Record} (hr : r ∈ df) : key r ∈ sortedKeys key df := by
  unfold sortedKeys
  rw [(List.perm_insertionSort _ _).mem_iff]
  exact List.mem_dedup.mpr (List.mem_map_of_mem key hr)

/-- C8: the per-category revenues of `category_rev` sum to the
`total_revenue` KPI on the same (in particular the unfiltered)
dataset: grouping partitions the rows, so the group sums add up to
the grand total. -/
theorem category_rev_sum_eq_total (df : List Record) :
    ((category_rev df).map Prod.snd).sum = total_revenue df := by
  unfold category_rev groupbySum total_revenue
  rw [List.map_map]
  exact sum_over_groups Record.category df
    (sortedKeys Record.category df)
    (sortedKeys_nodup Record.category df)
    (fun r hr => mem_sortedKeys Record.category hr)

theorem sortedKeys_pairwise (key : Record → String) (df : List Record) :
    (sortedKeys key df).Pairwise fun a b => strLe a b = true ∧ a ≠ b := by
  have h1 : (sortedKeys key df).Pairwise fun a b => strLe a b = true :=
    List.sorted_insertionSort _ _
  exact h1.and (sortedKeys_nodup key df)

theorem groupbySum_keys (key : Record → String) (df : List Record) :
    (groupbySum key df).map Prod.fst = sortedKeys key df := by
  unfold groupbySum
  rw [List.map_map]
  have h : (Prod.fst ∘ fun k : String =>
      (k, ((df.filter fun r => key r == k).map Record.totalRevenue).sum))
        = id := rfl
  rw [h, List.map_id]

/-- C5 (amended): the queries without a top-N cap do NOT list groups
in first-encounter order. `groupby` defaults to `sort=True`, so
`category_rev` and `segment_rev` list their pairs in strictly
ascending order of group key, and `value_counts` sorts, so
`payment_counts` lists its pairs in descending order of count. -/
theorem grouped_queries_sorted (df : List Record) :
    (((category_rev df).map Prod.fst).Pairwise
        fun a b => strLe a b = true ∧ a ≠ b) ∧
      (((segment_rev df).map Prod.fst).Pairwise
        fun a b => strLe a b = true ∧ a ≠ b) ∧
      (payment_counts df).Pairwise fun a b => b.2 ≤ a.2 := by
  refine ⟨?_, ?_, ?_⟩
  · unfold category_rev
    rw [groupbySum_keys]
    exact sortedKeys_pairwise Record.category df
  · unfold segment_rev
    rw [groupbySum_keys]
    exact sortedKeys_pairwise Record.customerSegment df
  · exact List.sorted_insertionSort _ _

/-- A dataset whose first row has Category "B" and second row
Category "A": category "B" is encountered first. -/
def rawCatB : RawRecord :=
  { rawEast with orderID := 2, category := "B", totalRevenue := 50 }

/-- Companion row with Category "A". -/
def rawCatA : RawRecord :=
  { rawEast with orderID := 3, category := "A", totalRevenue := 100 }

/-- Concrete two-row dataset with categories encountered as B, A. -/
def dsCat : List Record := [loadRecord rawCatB, loadRecord rawCatA]

/-- C5 counterexample: on `dsCat` the groups are first encountered in
the order B, A, yet `category_rev` lists A first (keys ascending), so
the output is not in insertion/group-encounter order. -/
theorem category_rev_not_encounter_order :
    firstUniques (dsCat.map Record.category) = ["B", "A"] ∧
      category_rev dsCat = [("A", (100 : Rat)), ("B", (50 : Rat))] ∧
      category_rev dsCat ≠ [("B", (50 : Rat)), ("A", (100 : Rat))] := by
  have hBA : strLe "B" "A" = false := by decide
  have hAB : strLe "A" "B" = true := by decide
  have hval : category_rev dsCat
      = [("A", (100 : Rat)), ("B", (50 : Rat))] := by
    simp [category_rev, groupbySum, sortedKeys, dsCat, rawCatB, rawCatA,
      rawEast, loadRecord, List.dedup, List.pwFilter, List.insertionSort,
      List.orderedInsert, hBA, hAB]
  refine ⟨by decide, hval, ?_⟩
  rw [hval]
  simp

theorem pairwise_descLex_orderedInsert (a : String × Rat)
    (l : List (String × Rat)) (hl : l.Pairwise descLex)
    (ha : ∀ b ∈ l, strLe a.1 b.1 = true ∧ a.1 ≠ b.1) :
    (List.orderedInsert (fun x y => y.2 ≤ x.2) a l).Pairwise descLex := by
  induction l with
  | nil => simp [List.orderedInsert]
  | cons b l ih =>
    rw [List.orderedInsert]
    obtain ⟨hbl, hl2⟩ := List.pairwise_cons.mp hl
    split_ifs with hab
    · rw [List.pairwise_cons]
      refine ⟨?_, hl⟩
      intro c hc
      have hc2 : c.2 ≤ a.2 := by
        rcases List.mem_cons.mp hc with h | h
        · exact h ▸ hab
        · rcases hbl c h with h1 | ⟨h1, _⟩
          · exact le_trans (le_of_lt h1) hab
          · exact le_trans (le_of_eq h1) hab
      rcases lt_or_eq_of_le hc2 with h | h
      · exact Or.inl h
      · exact Or.inr ⟨h, (ha c hc).1, (ha c hc).2⟩
    · rw [List.pairwise_cons]
      refine ⟨?_, ih hl2 fun c hc => ha c (List.mem_cons_of_mem b hc)⟩
      intro c hc
      rcases (List.mem_orderedInsert _).mp hc with h | h
      · exact h ▸ Or.inl (not_le.mp hab)
      · exact hbl c h

theorem pairwise_descLex_insertionSort (l : List (String × Rat))
    (hl : l.Pairwise fun a b => strLe a.1 b.1 = true ∧ a.1 ≠ b.1) :
    (List.insertionSort (fun x y => y.2 ≤ x.2) l).Pairwise descLex := by
  induction l with
  | nil => simp [List.insertionSort]
  | cons a l ih =>
    rw [List.insertionSort]
    obtain ⟨hal, hl2⟩ := List.pairwise_cons.mp hl
    apply pairwise_descLex_orderedInsert
    · exact ih hl2
    · intro b hb
      exact hal b ((List.perm_insertionSort _ l).mem_iff.mp hb)

theorem groupbySum_pairwise_key (key : Record → String)
    (df : List Record) :
    (groupbySum key df).Pairwise
      fun a b => strLe a.1 b.1 = true ∧ a.1 ≠ b.1 := by
  unfold groupbySum
  rw [List.pairwise_map]
  exact sortedKeys_pairwise key df

/-- C6 (amended): `top_products` and `store_rev` return at most 10
entries, sorted by summed TotalRevenue in descending order; ties are
broken by ascending group key (the groupby sorts the keys before the
stable metric sort runs), not by first-encounter order. `descLex`
states both the descending metric order and the tie rule at once. -/
theorem topn_capped_sorted (df : List Record) :
    (top_products df).length ≤ 10 ∧ (store_rev df).length ≤ 10 ∧
      (top_products df).Pairwise descLex ∧
      (store_rev df).Pairwise descLex := by
  refine ⟨?_, ?_, ?_, ?_⟩
  · exact List.length_take_le 10 _
  · exact List.length_take_le 10 _
  · unfold top_products
    exact (pairwise_descLex_insertionSort _
      (groupbySum_pairwise_key Record.product df)).sublist
      (List.take_sublist 10 _)
  · unfold store_rev
    exact (pairwise_descLex_insertionSort _
      (groupbySum_pairwise_key Record.store df)).sublist
      (List.take_sublist 10 _)

/-- A row whose Product "Z" is encountered first. -/
def rawProdZ : RawRecord := { rawEast with orderID := 4, product := "Z" }

/-- A row whose Product "A" ties with "Z" on revenue. -/
def rawProdA : RawRecord := { rawEast with orderID := 5, product := "A" }

/-- Concrete two-row dataset with equal revenues and products
encountered in the order Z, A. -/
def dsProd : List Record := [loadRecord rawProdZ, loadRecord rawProdA]

/-- C6 counterexample: on `dsProd` the products tie at revenue 100
and are first encountered in the order Z, A, yet `top_products`
lists A before Z — the tie is broken by ascending product name, not
by original group encounter order. -/
theorem top_products_tie_not_encounter_order :
    firstUniques (dsProd.map Record.product) = ["Z", "A"] ∧
      top_products dsProd = [("A", (100 : Rat)), ("Z", (100 : Rat))] := by
  have hZA : strLe "Z" "A" = false := by decide
  have hAZ : strLe "A" "Z" = true := by decide
  refine ⟨by decide, ?_⟩
  simp [top_products, groupbySum, sortedKeys, dsProd, rawProdZ, rawProdA,
    rawEast, loadRecord, List.dedup, List.pwFilter, List.insertionSort,
    List.orderedInsert, hZA, hAZ]
